import Mathlib

set_option linter.unusedVariables false

namespace Streamduck

/-!
Shallow embedding of the streamduck-fork core, covering:
* `src/streamduck-core/src/core/methods.rs` (CoreHandle methods as pure state
  transformers that also produce a trace of observable steps),
* `src/streamduck-core/src/threads/rendering.rs` (renderer hashing, the
  two-level cache, background synthesis and text overlay),
* `src/streamduck-client/src/windows.rs` (the client event buffer),
* the path-edit utilities of `crate::util`, which are not under `src/` and are
  therefore modelled from the spec where noted.

Machine hashes: `DefaultHasher` digests are pure functions of the byte stream
fed to them, so a 64-bit hash is modelled by the exact data the `Hash` impls
feed to the hasher; equal modelled hashes imply equal `u64` hashes in the code.
-/

/-- Component state held by a button is opaque to the store; a button is
identified here by the list of component names it carries
(`Button::component_names`). -/
abbrev Button := List String

/-- A panel maps key indices to buttons (`ButtonPanel`, a `HashMap<u8, UniqueButton>`);
modelled as an association list. -/
abbrev Panel := List (Nat × Button)

/-- Association list lookup, modelling `HashMap::get`. -/
def alookup {α β : Type} [DecidableEq α] : List (α × β) → α → Option β
  | [], _ => none
  | (k, v) :: rest, a => if k = a then some v else alookup rest a

/-- Association list insertion, modelling `HashMap::insert` (replace or add). -/
def ainsert {α β : Type} [DecidableEq α] : List (α × β) → α → β → List (α × β)
  | [], a, b => [(a, b)]
  | (k, v) :: rest, a, b => if k = a then (a, b) :: rest else (k, v) :: ainsert rest a b

/-- Association list removal, modelling `HashMap::remove` (first match). -/
def aremove {α β : Type} [DecidableEq α] : List (α × β) → α → List (α × β)
  | [], _ => []
  | (k, v) :: rest, a => if k = a then rest else (k, v) :: aremove rest a

/-- Modelled from the spec: the `UIValue` tree of the value model (spec §3).
`crate::modules::components` is not under `src/`; only the variants the claims
exercise are included — an integer scalar standing in for the primitive
scalars, plus named groups and arrays.  Per §3 an array carries an element
template.  Every value carries a display name. -/
inductive UIValue
  | intValue (name : String) (value : Int)
  | group (name : String) (fields : List UIValue)
  | array (name : String) (template : UIValue) (elems : List UIValue)

/-- Display name carried by every value (spec §3). -/
def valueName : UIValue → String
  | .intValue n _ => n
  | .group n _ => n
  | .array n _ _ => n

/-- Modelled from the spec: a parsed segment of a dot-and-bracket path
expression (`group.field[2].sub`, spec §3): `.field n` descends into a named
field of a group, `.index i` selects the i-th element of an array. -/
inductive PathSeg
  | field (name : String)
  | index (i : Nat)

/-- Modelled from the spec: variant compatibility used by the Set operation
(spec §4.1, "whose runtime variant must match the target's variant"). -/
def sameVariant : UIValue → UIValue → Bool
  | .intValue _ _, .intValue _ _ => true
  | .group _ _, .group _ _ => true
  | .array _ _ _, .array _ _ _ => true
  | _, _ => false

/-- A `UIValue` together with its path (spec §3, `UIPathValue`). -/
structure UIPathValue where
  value : UIValue
  path : List PathSeg

/-- Modelled from the spec: `crate::util::add_array_function` (not under src/);
ArrayAdd appends a fresh element built from the array's template (spec §4.1). -/
def add_array_function : UIValue → Option UIValue
  | .array n tmpl elems => some (.array n tmpl (elems ++ [tmpl]))
  | _ => none

/-- Modelled from the spec: `crate::util::remove_array_function` (not under
src/); ArrayRemove removes element `index`, failing out of range (spec §4.1). -/
def remove_array_function (index : Nat) : UIValue → Option UIValue
  | .array n tmpl elems =>
    if index < elems.length then some (.array n tmpl (elems.eraseIdx index)) else none
  | _ => none

/-- Modelled from the spec: `crate::util::set_value_function` (not under src/);
Set replaces the target with the provided value when variants match (spec §4.1). -/
def set_value_function (v : UIPathValue) : UIValue → Option UIValue :=
  fun old => if sameVariant old v.value then some v.value else none

mutual

/-- Modelled from the spec: applying an edit function at a path inside one
value; `.field` descends into a group's named field, `.index` into an array
element; a failed lookup or a failed edit is an error (spec §3, §4.1). -/
def applyAt (f : UIValue → Option UIValue) : List PathSeg → UIValue → Option UIValue
  | [], v => f v
  | PathSeg.field n :: rest, UIValue.group gn fields =>
    match applyFields f n rest fields with
    | some fields' => some (UIValue.group gn fields')
    | none => none
  | PathSeg.index i :: rest, UIValue.array an tmpl elems =>
    match elems.get? i with
    | some el =>
      match applyAt f rest el with
      | some el' => some (UIValue.array an tmpl (elems.set i el'))
      | none => none
    | none => none
  | _, _ => none
termination_by path v => (path.length, 0)

/-- Edits the first value named `n` in a list of values, descending with the
remaining path; fails when no field carries the name (spec §4.1: missing names
are errors, sibling values are untouched). -/
def applyFields (f : UIValue → Option UIValue) (n : String) (rest : List PathSeg) :
    List UIValue → Option (List UIValue)
  | [] => none
  | v :: vs =>
    if valueName v = n then
      match applyAt f rest v with
      | some v' => some (v' :: vs)
      | none => none
    else
      match applyFields f n rest vs with
      | some vs' => some (v :: vs')
      | none => none
termination_by vs => (rest.length, vs.length + 1)

end

mutual

/-- Reading the value at a path inside one value (pure lookup companion of
`applyAt`). -/
def resolveValue : List PathSeg → UIValue → Option UIValue
  | [], v => some v
  | PathSeg.field n :: rest, UIValue.group _ fields => resolveFields n rest fields
  | PathSeg.index i :: rest, UIValue.array _ _ elems =>
    match elems.get? i with
    | some el => resolveValue rest el
    | none => none
  | _, _ => none
termination_by path v => (path.length, 0)

/-- Reads through the first value named `n` in a list of values. -/
def resolveFields (n : String) (rest : List PathSeg) : List UIValue → Option UIValue
  | [] => none
  | v :: vs => if valueName v = n then resolveValue rest v else resolveFields n rest vs
termination_by vs => (rest.length, vs.length + 1)

end

/-- Modelled from the spec: `crate::util::change_from_path` (not under src/).
Applies the edit function at the path inside the component's top-level value
list, returning the edited list plus a success flag; on failure the values are
returned unchanged with `false` (spec §4.1, §7 "Path-editing returns a
success/failure flag plus the edited tree"). -/
def change_from_path (path : List PathSeg) (values : List UIValue)
    (f : UIValue → Option UIValue) : List UIValue × Bool :=
  match path with
  | PathSeg.field n :: rest =>
    match applyFields f n rest values with
    | some values' => (values', true)
    | none => (values, false)
  | _ => (values, false)

/-- Reading the value at a path inside a top-level value list. -/
def resolve (path : List PathSeg) (values : List UIValue) : Option UIValue :=
  match path with
  | PathSeg.field n :: rest => resolveFields n rest values
  | _ => none

/-- Core events fanned out to modules (`SDCoreEvent`, modules/events). -/
inductive SDCoreEvent
  | buttonAdded (key : Nat) (panel : Panel) (added_button : Button)
  | buttonUpdated (key : Nat) (panel : Panel) (new_button old_button : Button)
  | buttonDeleted (key : Nat) (panel : Panel) (deleted_button : Button)
  | buttonDown (key : Nat)
  | buttonUp (key : Nat)
  | buttonAction (key : Nat) (panel : Panel) (pressed_button : Button)
  | panelPushed (new_panel : Panel)
  | panelPopped (popped_panel : Panel)
  | panelReplaced (old_panel : Option Panel) (new_panel : Panel)
  | stackReset (new_panel : Panel)
deriving DecidableEq, Repr

/-- One observable step of a `CoreHandle` method body: a `required_feature`
gate invocation, an event emission to modules, a `mark_for_redraw`, or some
other operation identified by name. -/
inductive Step
  | gate (feature : String)
  | emit (event : SDCoreEvent)
  | mark
  | op (name : String)
deriving DecidableEq, Repr

/-- The events of a trace, in emission order. -/
def emittedEvents (t : List Step) : List SDCoreEvent :=
  t.filterMap (fun s => match s with | Step.emit e => some e | _ => none)

/-- The per-device core state the claims touch: the panel stack
(`SDCore::current_stack`, a `Vec<ButtonPanel>`; the top of the stack is the
last element, as for `Vec::push`/`pop`/`last`). -/
structure CoreState where
  stack : List Panel
deriving DecidableEq, Repr

/-- The module-side collaborators of the core handle: the component registry
(`ModuleManager::read_component_map` containment) and the module callbacks,
whose component-state interpretation is opaque to the store (spec §4.2: the
store never interprets component bytes). -/
structure ModuleEnv where
  registry : String → Bool
  add_component_cb : Button → String → Button
  set_component_value_cb : Button → String → List UIValue → Button
  remove_component_cb : Button → String → Button
  component_values_cb : Button → String → List UIValue
  paste_components_cb : Button → Button → Button

/-- CoreHandle::required_feature (methods.rs 67-69): the advisory feature
gate; modelled as the trace step it contributes. -/
def required_feature (feature : String) : List Step := [Step.gate feature]

/-- CoreHandle::core (methods.rs 81-84). -/
def core : List Step := required_feature "core"

/-- CoreHandle::config (methods.rs 87-90). -/
def config : List Step := required_feature "config"

/-- CoreHandle::module_manager (methods.rs 93-96). -/
def module_manager : List Step := required_feature "module_manager"

/-- CoreHandle::socket_manager (methods.rs 99-102). -/
def socket_manager : List Step := required_feature "socket_api"

/-- CoreHandle::current_stack (methods.rs 105-108). -/
def current_stack : List Step := required_feature "core"

/-- CoreHandle::send_core_event_to_modules (methods.rs 111-124): dispatches a
clone of the event to every module of the iterator whose name differs from the
handle's `module_name`, in iteration order; the body invokes no feature gate. -/
def send_core_event_to_modules (module_name : String) (event : SDCoreEvent)
    (modules : List String) : List (String × SDCoreEvent) :=
  (modules.filter (fun m => m != module_name)).map (fun m => (m, event))

/-- CoreHandle::get_stack (methods.rs 127-132). -/
def get_stack (s : CoreState) : List Step × List Panel :=
  (required_feature "core_methods" ++ current_stack, s.stack)

/-- CoreHandle::get_current_screen (methods.rs 135-144): the panel on top of
the stack. -/
def get_current_screen (s : CoreState) : List Step × Option Panel :=
  (required_feature "core_methods" ++ current_stack, s.stack.getLast?)

/-- CoreHandle::get_button (methods.rs 147-155). -/
def get_button (s : CoreState) (key : Nat) : List Step × Option Button :=
  (required_feature "core_methods" ++ (get_current_screen s).1,
   match (get_current_screen s).2 with
   | some screen => alookup screen key
   | none => none)

/-- CoreHandle::set_button (methods.rs 158-189): inserts the button, emits
`ButtonUpdated` with old and new when the slot was occupied and `ButtonAdded`
with only the new when it was empty, then marks for redraw. -/
def set_button (s : CoreState) (key : Nat) (button : Button) :
    List Step × CoreState × Bool :=
  let r : List Step × CoreState × Bool :=
    match (get_current_screen s).2 with
    | some screen =>
      match alookup screen key with
      | some previous =>
        (module_manager ++
          [Step.emit (.buttonUpdated key (ainsert screen key button) button previous),
           Step.mark],
         ⟨s.stack.dropLast ++ [ainsert screen key button]⟩, true)
      | none =>
        (module_manager ++
          [Step.emit (.buttonAdded key (ainsert screen key button) button), Step.mark],
         ⟨s.stack.dropLast ++ [ainsert screen key button]⟩, true)
    | none => ([], s, false)
  (required_feature "core_methods" ++ (get_current_screen s).1 ++ r.1, r.2)

/-- CoreHandle::clear_button (methods.rs 192-214): removes the button if the
slot is occupied, emitting `ButtonDeleted` with the removed button and marking
for redraw; returns false otherwise. -/
def clear_button (s : CoreState) (key : Nat) : List Step × CoreState × Bool :=
  let r : List Step × CoreState × Bool :=
    match (get_current_screen s).2 with
    | some screen =>
      match alookup screen key with
      | some button =>
        (module_manager ++
          [Step.emit (.buttonDeleted key (aremove screen key) button), Step.mark],
         ⟨s.stack.dropLast ++ [aremove screen key]⟩, true)
      | none => ([], s, false)
    | none => ([], s, false)
  (required_feature "core_methods" ++ (get_current_screen s).1 ++ r.1, r.2)

/-- CoreHandle::add_component (methods.rs 217-255): succeeds when the button
exists, does not already carry the component, and the component is registered;
the owning module's callback mutates the button, `ButtonUpdated` carries the
pre-mutation snapshot as old, and the device is marked for redraw. -/
def add_component (env : ModuleEnv) (s : CoreState) (key : Nat)
    (component_name : String) : List Step × CoreState × Bool :=
  let r : List Step × CoreState × Bool :=
    match (get_current_screen s).2 with
    | some screen =>
      match alookup screen key with
      | some button =>
        if component_name ∈ button then ([], s, false)
        else if env.registry component_name then
          ([Step.op "module.add_component"] ++ module_manager ++
            [Step.emit (.buttonUpdated key
                (ainsert screen key (env.add_component_cb button component_name))
                (env.add_component_cb button component_name) button),
             Step.mark],
           ⟨s.stack.dropLast ++ [ainsert screen key (env.add_component_cb button component_name)]⟩,
           true)
        else ([], s, false)
      | none => ([], s, false)
    | none => ([], s, false)
  (required_feature "core_methods" ++ module_manager ++ (get_current_screen s).1 ++ r.1, r.2)

/-- CoreHandle::get_component_values (methods.rs 258-280): asks the owning
module for the component's current value list. -/
def get_component_values (env : ModuleEnv) (s : CoreState) (key : Nat)
    (component_name : String) : List Step × Option (List UIValue) :=
  (required_feature "core_methods" ++ module_manager ++ (get_current_screen s).1,
   match (get_current_screen s).2 with
   | some screen =>
     match alookup screen key with
     | some button =>
       if component_name ∈ button ∧ env.registry component_name then
         some (env.component_values_cb button component_name)
       else none
     | none => none
   | none => none)

/-- CoreHandle::get_component_values_with_paths (methods.rs 283-291); the
path-annotation conversion lives in `crate::util` outside src/ and is an op. -/
def get_component_values_with_paths (env : ModuleEnv) (s : CoreState) (key : Nat)
    (component_name : String) : List Step × Option (List UIValue) :=
  (required_feature "core_methods" ++ (get_component_values env s key component_name).1 ++
    [Step.op "convert_value_to_path"],
   (get_component_values env s key component_name).2)

/-- CoreHandle::set_component_value (methods.rs 294-331): hands the value list
to the owning module, emits `ButtonUpdated` (pre-mutation snapshot as old) and
marks for redraw. -/
def set_component_value (env : ModuleEnv) (s : CoreState) (key : Nat)
    (component_name : String) (value : List UIValue) : List Step × CoreState × Bool :=
  let r : List Step × CoreState × Bool :=
    match (get_current_screen s).2 with
    | some screen =>
      match alookup screen key with
      | some button =>
        if component_name ∈ button ∧ env.registry component_name then
          ([Step.op "module.set_component_value"] ++ module_manager ++
            [Step.emit (.buttonUpdated key
                (ainsert screen key (env.set_component_value_cb button component_name value))
                (env.set_component_value_cb button component_name value) button),
             Step.mark],
           ⟨s.stack.dropLast ++
              [ainsert screen key (env.set_component_value_cb button component_name value)]⟩,
           true)
        else ([], s, false)
      | none => ([], s, false)
    | none => ([], s, false)
  (required_feature "core_methods" ++ module_manager ++ (get_current_screen s).1 ++ r.1, r.2)

/-- CoreHandle::add_element_component_value (methods.rs 334-352): read the
values, apply the path edit, and only on success with a nonempty change set
write back through set_component_value. -/
def add_element_component_value (env : ModuleEnv) (s : CoreState) (key : Nat)
    (component_name : String) (path : List PathSeg) : List Step × CoreState × Bool :=
  let r : List Step × CoreState × Bool :=
    match (get_component_values env s key component_name).2 with
    | some values =>
      let changes := (change_from_path path values add_array_function).1
      let success := (change_from_path path values add_array_function).2
      if success then
        if changes.isEmpty then ([], s, false)
        else ((set_component_value env s key component_name changes).1,
              (set_component_value env s key component_name changes).2)
      else ([], s, false)
    | none => ([], s, false)
  (required_feature "core_methods" ++ (get_component_values env s key component_name).1 ++ r.1,
   r.2)

/-- CoreHandle::remove_element_component_value (methods.rs 355-373): read the
values, apply the ArrayRemove path edit, and only on success with a nonempty
change set write back through set_component_value. -/
def remove_element_component_value (env : ModuleEnv) (s : CoreState) (key : Nat)
    (component_name : String) (path : List PathSeg) (index : Nat) :
    List Step × CoreState × Bool :=
  let r : List Step × CoreState × Bool :=
    match (get_component_values env s key component_name).2 with
    | some values =>
      let changes := (change_from_path path values (remove_array_function index)).1
      let success := (change_from_path path values (remove_array_function index)).2
      if success then
        if changes.isEmpty then ([], s, false)
        else ((set_component_value env s key component_name changes).1,
              (set_component_value env s key component_name changes).2)
      else ([], s, false)
    | none => ([], s, false)
  (required_feature "core_methods" ++ (get_component_values env s key component_name).1 ++ r.1,
   r.2)

/-- CoreHandle::set_component_value_by_path (methods.rs 376-394). -/
def set_component_value_by_path (env : ModuleEnv) (s : CoreState) (key : Nat)
    (component_name : String) (value : UIPathValue) : List Step × CoreState × Bool :=
  let r : List Step × CoreState × Bool :=
    match (get_component_values env s key component_name).2 with
    | some values =>
      let changes := (change_from_path value.path values (set_value_function value)).1
      let success := (change_from_path value.path values (set_value_function value)).2
      if success then
        if changes.isEmpty then ([], s, false)
        else ((set_component_value env s key component_name changes).1,
              (set_component_value env s key component_name changes).2)
      else ([], s, false)
    | none => ([], s, false)
  (required_feature "core_methods" ++ (get_component_values env s key component_name).1 ++ r.1,
   r.2)

/-- CoreHandle::remove_component (methods.rs 397-435): succeeds when the button
exists, carries the component, and the component is registered; emits
`ButtonUpdated` and marks for redraw. -/
def remove_component (env : ModuleEnv) (s : CoreState) (key : Nat)
    (component_name : String) : List Step × CoreState × Bool :=
  let r : List Step × CoreState × Bool :=
    match (get_current_screen s).2 with
    | some screen =>
      match alookup screen key with
      | some button =>
        if component_name ∈ button ∧ env.registry component_name then
          ([Step.op "module.remove_component"] ++ module_manager ++
            [Step.emit (.buttonUpdated key
                (ainsert screen key (env.remove_component_cb button component_name))
                (env.remove_component_cb button component_name) button),
             Step.mark],
           ⟨s.stack.dropLast ++
              [ainsert screen key (env.remove_component_cb button component_name)]⟩,
           true)
        else ([], s, false)
      | none => ([], s, false)
    | none => ([], s, false)
  (required_feature "core_methods" ++ module_manager ++ (get_current_screen s).1 ++ r.1, r.2)

/-- CoreHandle::paste_button (methods.rs 438-449): creates a fresh button, lets
the modules owning components of the reference translate their state into it,
then installs it through set_button.  The body begins with `Button::new()` and
invokes no feature gate of its own. -/
def paste_button (env : ModuleEnv) (s : CoreState) (key : Nat)
    (reference_button : Button) : List Step × CoreState × Bool :=
  let new_button := env.paste_components_cb reference_button []
  ([Step.op "Button_new"] ++ module_manager ++
     [Step.op "get_modules_for_declared_components", Step.op "modules.paste_component",
      Step.op "println"] ++ (set_button s key new_button).1,
   (set_button s key new_button).2)

/-- CoreHandle::push_screen (methods.rs 452-464). -/
def push_screen (s : CoreState) (screen : Panel) : List Step × CoreState :=
  (required_feature "core_methods" ++ current_stack ++ [Step.op "stack.push"] ++
     module_manager ++ [Step.emit (.panelPushed screen), Step.mark],
   ⟨s.stack ++ [screen]⟩)

/-- CoreHandle::pop_screen (methods.rs 467-481): pops the stack
unconditionally (`stack.pop()` with no length check), emits `PanelPopped` when
a panel was removed, and always marks for redraw. -/
def pop_screen (s : CoreState) : List Step × CoreState :=
  let r : List Step :=
    match s.stack.getLast? with
    | some old_panel =>
      module_manager ++ [Step.emit (.panelPopped old_panel), Step.mark]
    | none => [Step.mark]
  (required_feature "core_methods" ++ current_stack ++ [Step.op "stack.pop"] ++ r,
   ⟨s.stack.dropLast⟩)

/-- CoreHandle::get_root_screen (methods.rs 484-488): `stack.get(0).unwrap()`;
the panic on an empty stack is modelled by `none`. -/
def get_root_screen (s : CoreState) : List Step × Option Panel :=
  (required_feature "core_methods" ++ current_stack, s.stack.get? 0)

/-- Result of save_panels_to_value: the serialized root panel, or the empty
JSON object substituted on an empty stack. -/
inductive SavedValue
  | panelValue (p : Panel)
  | emptyObject
deriving DecidableEq, Repr

/-- CoreHandle::save_panels_to_value (methods.rs 491-501): serializes the root
panel when the stack is nonempty and otherwise returns `Value::Object(Map::new())`. -/
def save_panels_to_value (s : CoreState) : List Step × SavedValue :=
  (required_feature "core_methods" ++ current_stack,
   match s.stack.get? 0 with
   | some panel => SavedValue.panelValue panel
   | none => SavedValue.emptyObject)

/-- CoreHandle::reset_stack (methods.rs 504-517). -/
def reset_stack (s : CoreState) (panel : Panel) : List Step × CoreState :=
  (required_feature "core_methods" ++ current_stack ++
     [Step.op "stack.clear", Step.op "stack.push"] ++ module_manager ++
     [Step.emit (.stackReset panel), Step.mark],
   ⟨[panel]⟩)

/-- CoreHandle::load_panels_from_value (methods.rs 520-542); the JSON parse
(`deserialize_panel`, crate::util, not under src/) is modelled by the
pre-parsed `Option Panel` argument. -/
def load_panels_from_value (s : CoreState) (panels : Option Panel) :
    List Step × CoreState × Bool :=
  let r : List Step × CoreState × Bool :=
    match panels with
    | some panel =>
      (current_stack ++ [Step.op "stack.clear", Step.op "stack.push"] ++ module_manager ++
         [Step.emit (.stackReset panel), Step.mark],
       ⟨[panel]⟩, true)
    | none => ([], s, false)
  (required_feature "core_methods" ++ [Step.op "deserialize_panel"] ++ r.1, r.2)

/-- CoreHandle::button_down (methods.rs 545-550). -/
def button_down (s : CoreState) (key : Nat) : List Step :=
  required_feature "core_methods" ++ module_manager ++ [Step.emit (.buttonDown key)]

/-- CoreHandle::button_action (methods.rs 563-587): emits `ButtonAction` to the
modules owning the button's components and marks for redraw. -/
def button_action (s : CoreState) (key : Nat) : List Step :=
  let r : List Step :=
    match (get_current_screen s).2 with
    | some screen =>
      match alookup screen key with
      | some button =>
        module_manager ++
          [Step.op "get_modules_for_components",
           Step.emit (.buttonAction key screen button), Step.mark]
      | none => []
    | none => []
  required_feature "core_methods" ++ (get_current_screen s).1 ++ r

/-- CoreHandle::button_up (methods.rs 553-560). -/
def button_up (s : CoreState) (key : Nat) : List Step :=
  required_feature "core_methods" ++ module_manager ++ [Step.emit (.buttonUp key)] ++
    button_action s key

/-- CoreHandle::get_button_images (methods.rs 590-649): the body begins by
synthesizing the missing/custom/blank textures, then reads the current screen
and renders each button (helpers from `crate::thread::rendering`, outside
src/, abstracted as ops).  It invokes no feature gate of its own. -/
def get_button_images (s : CoreState) : List Step × Bool :=
  match (get_current_screen s).2 with
  | some _ =>
    ([Step.op "draw_missing_texture", Step.op "draw_custom_renderer_texture",
      Step.op "image_from_solid"] ++ (get_current_screen s).1 ++ [Step.op "render_buttons"],
     true)
  | none =>
    ([Step.op "draw_missing_texture", Step.op "draw_custom_renderer_texture",
      Step.op "image_from_solid"] ++ (get_current_screen s).1, false)

/-- CoreHandle::get_button_image (methods.rs 652-697): same shape as
get_button_images for a single key; no feature gate of its own. -/
def get_button_image (s : CoreState) (key : Nat) : List Step × Bool :=
  match (get_button s key).2 with
  | some _ =>
    ([Step.op "draw_missing_texture", Step.op "draw_custom_renderer_texture",
      Step.op "image_from_solid"] ++ (get_button s key).1 ++ [Step.op "render_button"],
     true)
  | none =>
    ([Step.op "draw_missing_texture", Step.op "draw_custom_renderer_texture",
      Step.op "image_from_solid"] ++ (get_button s key).1, false)

/-- CoreHandle::replace_screen (methods.rs 700-713): pops the top panel,
pushes the replacement, emits `PanelReplaced` with the optional old panel, and
marks for redraw. -/
def replace_screen (s : CoreState) (screen : Panel) : List Step × CoreState :=
  (required_feature "core_methods" ++ current_stack ++
     [Step.op "stack.pop", Step.op "stack.push"] ++ module_manager ++
     [Step.emit (.panelReplaced s.stack.getLast? screen), Step.mark],
   ⟨s.stack.dropLast ++ [screen]⟩)

/-- CoreHandle::set_brightness (methods.rs 716-722). -/
def set_brightness (brightness : Nat) : List Step :=
  required_feature "core_methods" ++
    [Step.op "send_commands SetBrightness", Step.op "device_config.brightness"]

/-- CoreHandle::commit_changes (methods.rs 725-735): takes the root screen
(panicking on an empty stack, inherited from get_root_screen) and stores the
serialized layout into the device config. -/
def commit_changes (s : CoreState) : List Step × Option Panel :=
  (required_feature "core_methods" ++ (get_root_screen s).1 ++
     [Step.op "panel_to_raw", Step.op "dirty_state", Step.op "commit_time"],
   (get_root_screen s).2)

/-- Color quadruple, R,G,B,A each 0..255 (threads/rendering.rs 272). -/
abbrev Color := Nat × Nat × Nat × Nat

/-- Text alignment; modelled from the spec (§4.5 step 5: Left/Center/Right) —
`crate::util::rendering::TextAlignment` is not under src/. -/
inductive TextAlignment
  | left
  | center
  | right
deriving DecidableEq, Repr

/-- ButtonTextShadow (threads/rendering.rs 314-318). -/
structure ButtonTextShadow where
  offset : Int × Int
  color : Color
deriving DecidableEq, Repr

/-- ButtonText (threads/rendering.rs 290-300).  The `f32` pairs `scale` and
`offset` are modelled over ℚ (no arithmetic is performed on them in the
embedded code; they are only stored, compared and passed to the draw
primitives, and the concrete values used below are exactly representable). -/
structure ButtonText where
  text : String
  font : String
  scale : Rat × Rat
  alignment : TextAlignment
  padding : Nat
  offset : Rat × Rat
  color : Color
  shadow : Option ButtonTextShadow
deriving DecidableEq, Repr

/-- ButtonBackground (threads/rendering.rs 275-281). -/
inductive ButtonBackground
  | solid (c : Color)
  | horizontalGradient (a b : Color)
  | verticalGradient (a b : Color)
  | image (path : String) (disable_caching : Bool)
deriving DecidableEq, Repr

/-- RendererComponent (threads/rendering.rs 321-329). -/
structure RendererComponent where
  background : ButtonBackground
  text : List ButtonText
  to_cache : Bool
deriving DecidableEq, Repr

/-- Exactly the fields `impl Hash for ButtonText` (threads/rendering.rs
302-311) feeds to the hasher: text, font, alignment, padding, color, shadow —
scale and offset are omitted. -/
structure ButtonTextHashInput where
  text : String
  font : String
  alignment : TextAlignment
  padding : Nat
  color : Color
  shadow : Option ButtonTextShadow
deriving DecidableEq, Repr

def buttonTextHash (bt : ButtonText) : ButtonTextHashInput :=
  ⟨bt.text, bt.font, bt.alignment, bt.padding, bt.color, bt.shadow⟩

/-- Data fed to the hasher by the derived `Hash` of RendererComponent. -/
abbrev RendererHashInput := ButtonBackground × List ButtonTextHashInput × Bool

/-- hash_renderer (threads/rendering.rs 347-351): the `DefaultHasher` digest is
a pure function of exactly this data (derived Hash on background, the Vec of
ButtonText hash inputs, and to_cache), so the u64 hash is modelled by the data
it digests: equal hash inputs give equal u64 hashes in the code. -/
def hash_renderer (renderer : RendererComponent) : RendererHashInput :=
  (renderer.background, renderer.text.map buttonTextHash, renderer.to_cache)

/-- Parameters handed to the text-draw primitives
(`render_aligned_[shadowed_]text_on_image`, threads/rendering.rs 216-241); the
drawn overlay is a function of exactly these (the shadowed variant is selected
by `shadow` being present). -/
structure TextDraw where
  text : String
  font : String
  scale : Rat × Rat
  alignment : TextAlignment
  padding : Nat
  offset : Rat × Rat
  color : Color
  shadow : Option ButtonTextShadow
deriving DecidableEq, Repr

/-- Composite images produced by the render pipeline, as the tree of drawing
operations applied: the image primitives (`image_from_solid`, the gradients,
`load_image`, the missing-texture bitmap of threads/rendering.rs 61-118, and
the text overlays) are injective constructors of this abstract image type. -/
inductive Image
  | solid (size : Nat × Nat) (c : Color)
  | horizGradient (size : Nat × Nat) (a b : Color)
  | vertGradient (size : Nat × Nat) (a b : Color)
  | decoded (size : Nat × Nat) (path : String)
  | missingTexture
  | withText (base : Image) (d : TextDraw)
deriving DecidableEq, Repr

/-- The image cache, keyed by `hash_path(path)` — a pure function of the path,
modelled by the path itself (threads/rendering.rs 45, 353-357). -/
abbrev ImageCache := List (String × Image)

/-- The render cache, keyed by `hash_renderer` (threads/rendering.rs 44). -/
abbrev RenderCache := List (RendererHashInput × Image)

/-- RendererState (threads/rendering.rs 43-46). -/
structure RendererState where
  render_cache : RenderCache
  image_cache : ImageCache
deriving Repr

/-- The render worker's environment: the device image size, which fonts
`get_font_from_collection` resolves, and which paths `load_image` decodes
successfully. -/
structure RenderEnv where
  image_size : Nat × Nat
  fonts : String → Bool
  disk : String → Bool

def textDraw (bt : ButtonText) : TextDraw :=
  ⟨bt.text, bt.font, bt.scale, bt.alignment, bt.padding, bt.offset, bt.color, bt.shadow⟩

/-- The text overlay loop of redraw (threads/rendering.rs 206-243): each entry
whose font resolves is drawn with its text, scale, alignment, padding, offset,
color and optional shadow. -/
def draw_texts (env : RenderEnv) (texts : List ButtonText) (img : Image) : Image :=
  texts.foldl (fun im bt => if env.fonts bt.font then Image.withText im (textDraw bt) else im) img

/-- Background synthesis of redraw (threads/rendering.rs 164-204): solid and
gradient fills (alpha forced to 255), and the Image case with its image-cache
lookup, decode-from-disk, missing-texture substitution on failure, and
insertion guarded by `!disable_caching && !no_image`.  Returns the image, the
`no_image` flag, and the updated image cache. -/
def draw_background (env : RenderEnv) (icache : ImageCache) :
    ButtonBackground → Image × Bool × ImageCache
  | .solid c =>
    (Image.solid env.image_size (c.1, c.2.1, c.2.2.1, 255), false, icache)
  | .horizontalGradient a b =>
    (Image.horizGradient env.image_size (a.1, a.2.1, a.2.2.1, 255) (b.1, b.2.1, b.2.2.1, 255),
     false, icache)
  | .verticalGradient a b =>
    (Image.vertGradient env.image_size (a.1, a.2.1, a.2.2.1, 255) (b.1, b.2.1, b.2.2.1, 255),
     false, icache)
  | .image path disable_caching =>
    match alookup icache path, disable_caching with
    | some img, false => (img, false, icache)
    | _, _ =>
      if env.disk path then
        let img := Image.decoded env.image_size path
        (img, false, if disable_caching then icache else ainsert icache path img)
      else
        (Image.missingTexture, true, icache)

/-- The per-key body of redraw (threads/rendering.rs 153-256): render-cache
lookup (`cache_entry.is_some() && renderer.to_cache`), otherwise background
synthesis followed by the text overlay, then insertion into the render cache
guarded by `renderer.to_cache && !no_image`. -/
def redraw_button (env : RenderEnv) (st : RendererState) (renderer : RendererComponent) :
    Image × RendererState :=
  let renderer_hash := hash_renderer renderer
  match alookup st.render_cache renderer_hash, renderer.to_cache with
  | some img, true => (img, st)
  | _, _ =>
    let b := draw_background env st.image_cache renderer.background
    let image := draw_texts env renderer.text b.1
    let rcache' :=
      if renderer.to_cache && !b.2.1 then ainsert st.render_cache renderer_hash image
      else st.render_cache
    (image, ⟨rcache', b.2.2⟩)

/-- Commands pushed to the device thread (threads/streamdeck). -/
inductive StreamDeckCommand
  | setButtonImage (key : Nat) (img : Image)
  | clearButtonImage (key : Nat)
deriving DecidableEq, Repr

/-- The full redraw loop (threads/rendering.rs 145-269) over keys
`0..key_count`; a missing screen, a missing button or a failed parse of the
renderer component (`none` entry) yields ClearButtonImage. -/
def redraw (env : RenderEnv) (st0 : RendererState) (key_count : Nat)
    (screen : Option (List (Nat × Option RendererComponent))) :
    List StreamDeckCommand × RendererState :=
  (List.range key_count).foldl
    (fun acc i =>
      match screen with
      | some scr =>
        match alookup scr i with
        | some (some renderer) =>
          let r := redraw_button env acc.2 renderer
          (acc.1 ++ [StreamDeckCommand.setButtonImage i r.1], r.2)
        | some none => (acc.1 ++ [StreamDeckCommand.clearButtonImage i], acc.2)
        | none => (acc.1 ++ [StreamDeckCommand.clearButtonImage i], acc.2)
      | none => (acc.1 ++ [StreamDeckCommand.clearButtonImage i], acc.2))
    ([], st0)

/-- A fresh rendering of a renderer component: background synthesis followed by
the text overlay — what the non-cached branch of redraw computes for the
component (with no image-cache entry in play). -/
def render (env : RenderEnv) (r : RendererComponent) : Image :=
  draw_texts env r.text (draw_background env [] r.background).1

/-- An IPC frame after JSON decoding, as the client sees it: the `ty` tag and
the decoded event payload when present (windows.rs / socket core). -/
structure SocketPacket (E : Type) where
  ty : String
  data : Option E

/-- WinClient (windows.rs 29-32): the connection (modelled by the list of
frames not yet read) and the event buffer (a `Vec<SDGlobalEvent>`; index 0 is
the oldest entry). -/
structure WinClient (E : Type) where
  event_buffer : List E
  incoming : List (SocketPacket E)

/-- Modelled from the spec: event frames received while the connection is
blocked in a request reply are appended to the client's event buffer (spec
§4.7: "Any frame whose `ty == \x22event\x22` is appended to the client's event
buffer"); the appending side (`read_response` in streamduck-client util) is
not under src/. -/
def stash_event {E : Type} (c : WinClient E) (e : E) : WinClient E :=
  { c with event_buffer := c.event_buffer ++ [e] }

/-- The read loop of get_event (windows.rs 403-411): frames are read until one
with `ty == "event"` and a payload arrives; other frames are discarded. -/
def read_socket_events {E : Type} : List (SocketPacket E) → Option (E × List (SocketPacket E))
  | [] => none
  | p :: rest =>
    if p.ty = "event" then
      match p.data with
      | some e => some (e, rest)
      | none => read_socket_events rest
    else read_socket_events rest

/-- WinClient::get_event (windows.rs 392-413): first `buffer.pop()` — which on
a `Vec` removes and returns the LAST element — and only with an empty buffer
the socket read loop. -/
def get_event {E : Type} (c : WinClient E) : Option (E × WinClient E) :=
  match c.event_buffer.getLast? with
  | some e => some (e, { c with event_buffer := c.event_buffer.dropLast })
  | none =>
    match read_socket_events c.incoming with
    | some (e, rest) => some (e, { c with incoming := rest })
    | none => none

/-- Whether an optional step is a feature-gate invocation. -/
def isGateStep : Option Step → Bool
  | some (Step.gate _) => true
  | _ => false

/-- A concrete module environment for evaluation: every component name is
registered, with simple callbacks. -/
def sampleEnv : ModuleEnv where
  registry := fun _ => true
  add_component_cb := fun b n => b ++ [n]
  set_component_value_cb := fun b _ _ => b
  remove_component_cb := fun b n => b.erase n
  component_values_cb := fun _ _ => []
  paste_components_cb := fun reference _ => reference

/-- An initialized device: the stack holds exactly the root panel, whose key 0
carries a button with the renderer component. -/
def c2_state : CoreState := ⟨[[(0, ["renderer"])]]⟩

/-- A client that stashed event 1 first and event 2 second while blocked. -/
def c3_client : WinClient Nat := { event_buffer := [1, 2], incoming := [] }

def c4_state : CoreState := ⟨[[(0, ["renderer"])]]⟩

/-- A render environment with every font available and an absent disk file. -/
def c5_env : RenderEnv where
  image_size := (72, 72)
  fonts := fun _ => true
  disk := fun _ => false

/-- A renderer component whose Image background points at a path that fails to
load, with caching fully enabled. -/
def c5_renderer : RendererComponent where
  background := ButtonBackground.image "/does/not/exist.png" false
  text := []
  to_cache := true

/-- A fresh renderer state: both caches empty. -/
def c5_state : RendererState := ⟨[], []⟩

def c6_state : CoreState := ⟨[[(0, ["renderer"])]]⟩

def c7_state : CoreState := ⟨[[(0, ["renderer"])]]⟩

/-- A component value tree for the path-edit claims: the S6-style group of a
scalar sibling and a three-element array (spec §8). -/
def c8_values : List UIValue :=
  [UIValue.intValue "a" 1,
   UIValue.array "arr" (UIValue.intValue "t" 0)
     [UIValue.intValue "x" 10, UIValue.intValue "y" 20, UIValue.intValue "z" 30]]

/-- A module environment whose component values are `c8_values`. -/
def c8_env : ModuleEnv where
  registry := fun n => n = "renderer"
  add_component_cb := fun b n => b ++ [n]
  set_component_value_cb := fun b _ _ => b
  remove_component_cb := fun b n => b.erase n
  component_values_cb := fun _ _ => c8_values
  paste_components_cb := fun reference _ => reference

def c8_state : CoreState := ⟨[[(0, ["renderer"])]]⟩

def c1_env : RenderEnv where
  image_size := (72, 72)
  fonts := fun _ => true
  disk := fun _ => false

def c1_text (sc off : Rat × Rat) : ButtonText where
  text := "A"
  font := "SourceHanSans-Medium.ttf"
  scale := sc
  alignment := TextAlignment.center
  padding := 0
  offset := off
  color := (255, 255, 255, 255)
  shadow := none

def c1_r1 : RendererComponent where
  background := ButtonBackground.solid (0, 0, 0, 0)
  text := [c1_text (25, 25) (0, 0)]
  to_cache := true

/-- Same as `c1_r1` except for the text scale. -/
def c1_r2 : RendererComponent where
  background := ButtonBackground.solid (0, 0, 0, 0)
  text := [c1_text (30, 30) (0, 0)]
  to_cache := true

/-- Same as `c1_r1` except for the text offset. -/
def c1_r3 : RendererComponent where
  background := ButtonBackground.solid (0, 0, 0, 0)
  text := [c1_text (25, 25) (0, 8)]
  to_cache := true

/-- C2: the claim "pop_screen on a single-panel stack leaves the stack
unchanged" is false on the code: pop_screen pops unconditionally, so on the
initialized single-panel stack it removes the root and empties the stack. -/
theorem c2_counterexample : (pop_screen c2_state).2.stack ≠ c2_state.stack := by
  decide

/-- C2 (amended): pop_screen always removes the top panel — the resulting
stack is the input stack minus its last element — so a single-panel stack is
emptied by pop_screen itself, not only by forcibly_pop. -/
theorem c2_pop_screen_always_pops (s : CoreState) (p : Panel) :
    (pop_screen s).2.stack = s.stack.dropLast ∧ (pop_screen ⟨[p]⟩).2.stack = [] := by
  constructor
  · rcases h : s.stack.getLast? with _ | q <;> simp [pop_screen, h]
  · simp [pop_screen]

/-- C10: get_root_screen unwraps element 0 of the panel stack — it returns the
modelled panic (`none`) exactly on the empty stack — and commit_changes, which
calls it, inherits the panic; save_panels_to_value instead substitutes the
empty JSON object on the empty stack; and the empty stack is reachable, since
pop_screen (as implemented) empties a single-panel stack. -/
theorem c10_get_root_screen_partial (s : CoreState) (p : Panel) :
    ((get_root_screen s).2 = none ↔ s.stack = []) ∧
    ((commit_changes s).2 = none ↔ s.stack = []) ∧
    (save_panels_to_value ⟨[]⟩).2 = SavedValue.emptyObject ∧
    (pop_screen ⟨[p]⟩).2.stack = [] := by
  obtain ⟨l⟩ := s
  refine ⟨?_, ?_, rfl, by simp [pop_screen]⟩ <;>
    cases l <;> simp [get_root_screen, commit_changes]

/-- C9: send_core_event_to_modules dispatches a copy of the event to every
module of the iterator except the one whose name the handle carries; the
originator is never in the dispatch list, and every other module is. -/
theorem c9_fanout_excludes_originator (module_name : String) (event : SDCoreEvent)
    (modules : List String) (m : String) :
    (∀ p ∈ send_core_event_to_modules module_name event modules, p.1 ≠ module_name) ∧
    (m ∈ modules → m ≠ module_name →
      (m, event) ∈ send_core_event_to_modules module_name event modules) := by
  constructor
  · intro p hp
    simp only [send_core_event_to_modules, List.mem_map, List.mem_filter] at hp
    obtain ⟨a, ⟨_, hne⟩, rfl⟩ := hp
    simpa using hne
  · intro hm hne
    simp only [send_core_event_to_modules, List.mem_map, List.mem_filter]
    exact ⟨m, ⟨hm, by simpa using hne⟩, rfl⟩

/-- C9 witness: with originator "mod_a" and modules ["mod_a", "mod_b"], module
"mod_b" receives the event. -/
theorem c9_fanout_witness :
    ("mod_b", SDCoreEvent.buttonDown 0) ∈
      send_core_event_to_modules "mod_a" (SDCoreEvent.buttonDown 0) ["mod_a", "mod_b"] :=
  (c9_fanout_excludes_originator "mod_a" (SDCoreEvent.buttonDown 0) ["mod_a", "mod_b"]
    "mod_b").2 (by decide) (by decide)

/-- C3: the claim that stashed events are surfaced in arrival (FIFO) order is
false on the code: with events 1 then 2 stashed in that arrival order,
get_event surfaces 2 first (`Vec::pop` takes the last element). -/
theorem c3_counterexample :
    (get_event c3_client).map Prod.fst = some 2 ∧
    (get_event c3_client).map Prod.fst ≠ some 1 := by
  constructor
  · rfl
  · decide

/-- C3 (amended): events stashed in the buffer while the client was blocked
are surfaced in reverse arrival (LIFO) order — get_event after a stash returns
the most recently stashed event and restores the buffer — and only with an
empty buffer are events taken from the stream in arrival order (the first
event frame is returned). -/
theorem c3_buffered_events_lifo {E : Type} (c : WinClient E) (e : E) (e' : E)
    (c' : WinClient E) (p : SocketPacket E) (rest : List (SocketPacket E))
    (hbuf : c'.event_buffer = []) (hin : c'.incoming = p :: rest)
    (hty : p.ty = "event") (hdata : p.data = some e') :
    get_event (stash_event c e) = some (e, c) ∧
    get_event c' = some (e', { c' with incoming := rest }) := by
  constructor
  · show (match (c.event_buffer ++ [e]).getLast? with
      | some x => some (x, { c with event_buffer := (c.event_buffer ++ [e]).dropLast })
      | none =>
        match read_socket_events (c.event_buffer ++ [e], c.incoming).2 with
        | some (y, r) => some (y, { c with event_buffer := c.event_buffer ++ [e], incoming := r })
        | none => none) = some (e, c)
    rw [List.getLast?_concat, List.dropLast_concat]
  · obtain ⟨buf, inc⟩ := c'
    simp only at hbuf hin
    subst hbuf hin
    simp [get_event, read_socket_events, hty, hdata]

/-- C3 witness: a stash followed by get_event returns the stashed event, and a
client with an empty buffer reads the first event frame off the stream. -/
theorem c3_lifo_witness :
    get_event (stash_event c3_client 5) = some (5, c3_client) ∧
    get_event ({ event_buffer := [], incoming := [⟨"event", some 7⟩] } : WinClient Nat) =
      some (7, { event_buffer := [], incoming := [] }) :=
  c3_buffered_events_lifo c3_client 5 7 ⟨[], [⟨"event", some 7⟩]⟩ ⟨"event", some 7⟩ []
    rfl rfl rfl rfl

/-- C4: the claim that every public CoreHandle method (including paste_button
and get_button_images) first invokes the feature gate is false on the code:
the bodies of paste_button and get_button_images begin with an operation that
is not a `required_feature` invocation. -/
theorem c4_counterexample :
    isGateStep (paste_button sampleEnv c4_state 0 ["renderer"]).1.head? = false ∧
    isGateStep (get_button_images c4_state).1.head? = false := by
  decide

/-- C4 (amended): every public CoreHandle operation method except
paste_button, get_button_images, get_button_image and
send_core_event_to_modules (and the handle utilities wrap, check_for_feature,
required_feature, clone_for, which implement the gate itself) invokes
required_feature for its feature as the first step of its body, for every
input. -/
theorem c4_gate_invoked_first :
    core.head? = some (Step.gate "core") ∧
    config.head? = some (Step.gate "config") ∧
    module_manager.head? = some (Step.gate "module_manager") ∧
    socket_manager.head? = some (Step.gate "socket_api") ∧
    current_stack.head? = some (Step.gate "core") ∧
    (∀ s, (get_stack s).1.head? = some (Step.gate "core_methods")) ∧
    (∀ s, (get_current_screen s).1.head? = some (Step.gate "core_methods")) ∧
    (∀ s k, (get_button s k).1.head? = some (Step.gate "core_methods")) ∧
    (∀ s k b, (set_button s k b).1.head? = some (Step.gate "core_methods")) ∧
    (∀ s k, (clear_button s k).1.head? = some (Step.gate "core_methods")) ∧
    (∀ env s k n, (add_component env s k n).1.head? = some (Step.gate "core_methods")) ∧
    (∀ env s k n, (get_component_values env s k n).1.head? = some (Step.gate "core_methods")) ∧
    (∀ env s k n,
      (get_component_values_with_paths env s k n).1.head? = some (Step.gate "core_methods")) ∧
    (∀ env s k n v, (set_component_value env s k n v).1.head? = some (Step.gate "core_methods")) ∧
    (∀ env s k n p,
      (add_element_component_value env s k n p).1.head? = some (Step.gate "core_methods")) ∧
    (∀ env s k n p i,
      (remove_element_component_value env s k n p i).1.head? = some (Step.gate "core_methods")) ∧
    (∀ env s k n v,
      (set_component_value_by_path env s k n v).1.head? = some (Step.gate "core_methods")) ∧
    (∀ env s k n, (remove_component env s k n).1.head? = some (Step.gate "core_methods")) ∧
    (∀ s p, (push_screen s p).1.head? = some (Step.gate "core_methods")) ∧
    (∀ s, (pop_screen s).1.head? = some (Step.gate "core_methods")) ∧
    (∀ s, (get_root_screen s).1.head? = some (Step.gate "core_methods")) ∧
    (∀ s, (save_panels_to_value s).1.head? = some (Step.gate "core_methods")) ∧
    (∀ s p, (reset_stack s p).1.head? = some (Step.gate "core_methods")) ∧
    (∀ s p, (load_panels_from_value s p).1.head? = some (Step.gate "core_methods")) ∧
    (∀ s k, (button_down s k).head? = some (Step.gate "core_methods")) ∧
    (∀ s k, (button_up s k).head? = some (Step.gate "core_methods")) ∧
    (∀ s k, (button_action s k).head? = some (Step.gate "core_methods")) ∧
    (∀ s p, (replace_screen s p).1.head? = some (Step.gate "core_methods")) ∧
    (∀ b, (set_brightness b).head? = some (Step.gate "core_methods")) ∧
    (∀ s, (commit_changes s).1.head? = some (Step.gate "core_methods")) :=
  ⟨rfl, rfl, rfl, rfl, rfl,
   fun _ => rfl, fun _ => rfl, fun _ _ => rfl, fun _ _ _ => rfl, fun _ _ => rfl,
   fun _ _ _ _ => rfl, fun _ _ _ _ => rfl, fun _ _ _ _ => rfl, fun _ _ _ _ _ => rfl,
   fun _ _ _ _ _ => rfl, fun _ _ _ _ _ _ => rfl, fun _ _ _ _ _ => rfl, fun _ _ _ _ => rfl,
   fun _ _ => rfl, fun _ => rfl, fun _ => rfl, fun _ => rfl, fun _ _ => rfl, fun _ _ => rfl,
   fun _ _ => rfl, fun _ _ => rfl, fun _ _ => rfl, fun _ _ => rfl, fun _ => rfl, fun _ => rfl⟩

/-- C7: every mutating core operation on the visible panel marks the device
for redraw whenever the mutation occurred: the conditional mutators whenever
they return success, and the stack mutators unconditionally. -/
theorem c7_mutators_mark_for_redraw :
    (∀ s k b, (set_button s k b).2.2 = true → Step.mark ∈ (set_button s k b).1) ∧
    (∀ s k, (clear_button s k).2.2 = true → Step.mark ∈ (clear_button s k).1) ∧
    (∀ env s k n, (add_component env s k n).2.2 = true →
      Step.mark ∈ (add_component env s k n).1) ∧
    (∀ env s k n v, (set_component_value env s k n v).2.2 = true →
      Step.mark ∈ (set_component_value env s k n v).1) ∧
    (∀ env s k n, (remove_component env s k n).2.2 = true →
      Step.mark ∈ (remove_component env s k n).1) ∧
    (∀ s p, Step.mark ∈ (push_screen s p).1) ∧
    (∀ s, Step.mark ∈ (pop_screen s).1) ∧
    (∀ s p, Step.mark ∈ (replace_screen s p).1) ∧
    (∀ s p, Step.mark ∈ (reset_stack s p).1) := by
  refine ⟨?_, ?_, ?_, ?_, ?_, ?_, ?_, ?_, ?_⟩
  · intro s k b h
    rcases hscr : (get_current_screen s).2 with _ | screen
    · simp [set_button, hscr] at h
    · rcases hprev : alookup screen k with _ | prev <;>
        simp [set_button, hscr, hprev, module_manager, required_feature]
  · intro s k h
    rcases hscr : (get_current_screen s).2 with _ | screen
    · simp [clear_button, hscr] at h
    · rcases hprev : alookup screen k with _ | prev
      · simp [clear_button, hscr, hprev] at h
      · simp [clear_button, hscr, hprev, module_manager, required_feature]
  · intro env s k n h
    rcases hscr : (get_current_screen s).2 with _ | screen
    · simp [add_component, hscr] at h
    · rcases hbtn : alookup screen k with _ | button
      · simp [add_component, hscr, hbtn] at h
      · by_cases hmem : n ∈ button
        · simp [add_component, hscr, hbtn, hmem] at h
        · by_cases hreg : env.registry n
          · simp [add_component, hscr, hbtn, hmem, hreg, module_manager, required_feature]
          · simp [add_component, hscr, hbtn, hmem, hreg] at h
  · intro env s k n v h
    rcases hscr : (get_current_screen s).2 with _ | screen
    · simp [set_component_value, hscr] at h
    · rcases hbtn : alookup screen k with _ | button
      · simp [set_component_value, hscr, hbtn] at h
      · by_cases hcond : n ∈ button ∧ env.registry n
        · simp [set_component_value, hscr, hbtn, hcond, module_manager, required_feature]
        · simp [set_component_value, hscr, hbtn, hcond] at h
  · intro env s k n h
    rcases hscr : (get_current_screen s).2 with _ | screen
    · simp [remove_component, hscr] at h
    · rcases hbtn : alookup screen k with _ | button
      · simp [remove_component, hscr, hbtn] at h
      · by_cases hcond : n ∈ button ∧ env.registry n
        · simp [remove_component, hscr, hbtn, hcond, module_manager, required_feature]
        · simp [remove_component, hscr, hbtn, hcond] at h
  · intro s p
    simp [push_screen, module_manager, required_feature, current_stack]
  · intro s
    rcases h : s.stack.getLast? with _ | q <;>
      simp [pop_screen, h, module_manager, required_feature, current_stack]
  · intro s p
    simp [replace_screen, module_manager, required_feature, current_stack]
  · intro s p
    simp [reset_stack, module_manager, required_feature, current_stack]

/-- C7 witness: on the initialized sample device every mutator marks for
redraw on its success path. -/
theorem c7_mark_witness :
    Step.mark ∈ (set_button c7_state 1 ["x"]).1 ∧
    Step.mark ∈ (clear_button c7_state 0).1 ∧
    Step.mark ∈ (add_component sampleEnv c7_state 0 "actions").1 ∧
    Step.mark ∈ (set_component_value sampleEnv c7_state 0 "renderer" []).1 ∧
    Step.mark ∈ (remove_component sampleEnv c7_state 0 "renderer").1 ∧
    Step.mark ∈ (push_screen c7_state []).1 ∧
    Step.mark ∈ (pop_screen c7_state).1 ∧
    Step.mark ∈ (replace_screen c7_state []).1 ∧
    Step.mark ∈ (reset_stack c7_state []).1 :=
  ⟨c7_mutators_mark_for_redraw.1 c7_state 1 ["x"] (by decide),
   c7_mutators_mark_for_redraw.2.1 c7_state 0 (by decide),
   c7_mutators_mark_for_redraw.2.2.1 sampleEnv c7_state 0 "actions" (by decide),
   c7_mutators_mark_for_redraw.2.2.2.1 sampleEnv c7_state 0 "renderer" [] (by decide),
   c7_mutators_mark_for_redraw.2.2.2.2.1 sampleEnv c7_state 0 "renderer" (by decide),
   c7_mutators_mark_for_redraw.2.2.2.2.2.1 c7_state [],
   c7_mutators_mark_for_redraw.2.2.2.2.2.2.1 c7_state,
   c7_mutators_mark_for_redraw.2.2.2.2.2.2.2.1 c7_state [],
   c7_mutators_mark_for_redraw.2.2.2.2.2.2.2.2 c7_state []⟩

/-- C6: set_button on an occupied slot emits ButtonUpdated with both the old
and the new button; on an empty slot it emits ButtonAdded with only the new
button; clear_button on an occupied slot emits ButtonDeleted with the removed
button. -/
theorem c6_button_events (s : CoreState) (key : Nat) (b : Button)
    (screen : Panel) (old : Button) :
    ((get_current_screen s).2 = some screen → alookup screen key = some old →
      emittedEvents (set_button s key b).1 =
        [SDCoreEvent.buttonUpdated key (ainsert screen key b) b old]) ∧
    ((get_current_screen s).2 = some screen → alookup screen key = none →
      emittedEvents (set_button s key b).1 =
        [SDCoreEvent.buttonAdded key (ainsert screen key b) b]) ∧
    ((get_current_screen s).2 = some screen → alookup screen key = some old →
      emittedEvents (clear_button s key).1 =
        [SDCoreEvent.buttonDeleted key (aremove screen key) old]) := by
  refine ⟨fun h1 h2 => ?_, fun h1 h2 => ?_, fun h1 h2 => ?_⟩ <;>
  · simp only [get_current_screen] at h1
    simp [set_button, clear_button, h1, h2, emittedEvents, required_feature,
      current_stack, module_manager, get_current_screen]

/-- C6 witness: the three event shapes on the initialized sample device. -/
theorem c6_button_events_witness :
    emittedEvents (set_button c6_state 0 ["new"]).1 =
      [SDCoreEvent.buttonUpdated 0 (ainsert [(0, ["renderer"])] 0 ["new"]) ["new"]
        ["renderer"]] ∧
    emittedEvents (set_button c6_state 1 ["new"]).1 =
      [SDCoreEvent.buttonAdded 1 (ainsert [(0, ["renderer"])] 1 ["new"]) ["new"]] ∧
    emittedEvents (clear_button c6_state 0).1 =
      [SDCoreEvent.buttonDeleted 0 (aremove [(0, ["renderer"])] 0) ["renderer"]] :=
  ⟨(c6_button_events c6_state 0 ["new"] [(0, ["renderer"])] ["renderer"]).1
      (by decide) (by decide),
   (c6_button_events c6_state 1 ["new"] [(0, ["renderer"])] ["renderer"]).2.1
      (by decide) (by decide),
   (c6_button_events c6_state 0 [] [(0, ["renderer"])] ["renderer"]).2.2
      (by decide) (by decide)⟩

/-- C1: the claim "hash_renderer(r1) == hash_renderer(r2) implies rendering r1
and r2 produce equal images" is false on the code: impl Hash for ButtonText
omits scale and offset, so components differing only in a text entry's scale
(c1_r2) or offset (c1_r3) hash identically yet render differently. -/
theorem c1_counterexample :
    hash_renderer c1_r1 = hash_renderer c1_r2 ∧
    render c1_env c1_r1 ≠ render c1_env c1_r2 ∧
    hash_renderer c1_r1 = hash_renderer c1_r3 ∧
    render c1_env c1_r1 ≠ render c1_env c1_r3 := by
  refine ⟨rfl, ?_, rfl, ?_⟩ <;> decide

/-- Two lists are equal when two maps over them are equal and the two mapped
functions are jointly injective. -/
theorem list_eq_of_paired_map_eq {α β γ : Type} (f : α → β) (g : α → γ)
    (hinj : ∀ a b, f a = f b → g a = g b → a = b) :
    ∀ (l1 l2 : List α), l1.map f = l2.map f → l1.map g = l2.map g → l1 = l2 := by
  intro l1
  induction l1 with
  | nil => intro l2 h1 _; cases l2 <;> simp_all
  | cons a t ih =>
    intro l2 h1 h2
    cases l2 with
    | nil => simp_all
    | cons b t2 =>
      simp only [List.map_cons, List.cons.injEq] at h1 h2
      rw [hinj a b h1.1 h2.1, ih t2 h1.2 h2.2]

/-- A ButtonText is determined by its hash input together with the omitted
scale and offset fields. -/
theorem buttonText_eq_of_hash_and_omitted (a b : ButtonText)
    (h1 : buttonTextHash a = buttonTextHash b)
    (h2 : (a.scale, a.offset) = (b.scale, b.offset)) : a = b := by
  cases a; cases b; simp_all [buttonTextHash]

/-- C1 (amended): hash_renderer omits each text entry's scale and offset, and
the rendered image is determined by the hash input together with those two
omitted fields: if two renderer components have equal hash inputs and their
text entries also agree on scale and offset, then every environment renders
them to the same image. -/
theorem c1_hash_with_omitted_fields_determines_render (env : RenderEnv)
    (r1 r2 : RendererComponent)
    (hh : hash_renderer r1 = hash_renderer r2)
    (hso : r1.text.map (fun bt => (bt.scale, bt.offset)) =
           r2.text.map (fun bt => (bt.scale, bt.offset))) :
    render env r1 = render env r2 := by
  have hparts : r1.background = r2.background ∧
      r1.text.map buttonTextHash = r2.text.map buttonTextHash ∧
      r1.to_cache = r2.to_cache := by
    simpa [hash_renderer, Prod.ext_iff] using hh
  have ht : r1.text = r2.text :=
    list_eq_of_paired_map_eq buttonTextHash (fun bt => (bt.scale, bt.offset))
      (fun a b hf hg => buttonText_eq_of_hash_and_omitted a b hf hg)
      r1.text r2.text hparts.2.1 hso
  unfold render
  rw [hparts.1, ht]

/-- C1 witness: the amended theorem applied at a concrete component. -/
theorem c1_render_witness : render c1_env c1_r1 = render c1_env c1_r1 :=
  c1_hash_with_omitted_fields_determines_render c1_env c1_r1 c1_r1 rfl rfl

/-- C5: in a render pass where the button's Image background misses the image
cache and fails to load from disk, the substituted missing texture is written
to neither cache — redraw_button leaves the renderer state unchanged (so the
image cache gains no entry for the path and the render cache gains no entry
for the renderer hash), even with to_cache true and disable_caching false —
and the served image is the missing texture with the text overlay. -/
theorem c5_missing_texture_not_cached (env : RenderEnv) (st : RendererState)
    (r : RendererComponent) (path : String)
    (hbg : r.background = ButtonBackground.image path false)
    (hdisk : env.disk path = false)
    (hic : alookup st.image_cache path = none)
    (hrc : alookup st.render_cache (hash_renderer r) = none) :
    redraw_button env st r = (draw_texts env r.text Image.missingTexture, st) ∧
    alookup (redraw_button env st r).2.image_cache path = none ∧
    alookup (redraw_button env st r).2.render_cache (hash_renderer r) = none := by
  have hmain : redraw_button env st r = (draw_texts env r.text Image.missingTexture, st) := by
    rcases hc : r.to_cache <;>
      simp [redraw_button, hrc, hbg, hc, draw_background, hic, hdisk]
  refine ⟨hmain, ?_, ?_⟩ <;> rw [hmain]
  · exact hic
  · exact hrc

/-- C5 witness: the theorem applied to the fresh state, the all-failing disk
environment and the caching-enabled component. -/
theorem c5_missing_texture_witness :
    redraw_button c5_env c5_state c5_renderer =
      (draw_texts c5_env c5_renderer.text Image.missingTexture, c5_state) ∧
    alookup (redraw_button c5_env c5_state c5_renderer).2.image_cache
      "/does/not/exist.png" = none ∧
    alookup (redraw_button c5_env c5_state c5_renderer).2.render_cache
      (hash_renderer c5_renderer) = none :=
  c5_missing_texture_not_cached c5_env c5_state c5_renderer "/does/not/exist.png"
    rfl rfl rfl rfl

/-- A successful indexed lookup implies the index is in range. -/
theorem get?_some_lt {α : Type} :
    ∀ (l : List α) (i : Nat) (a : α), l.get? i = some a → i < l.length := by
  intro l
  induction l with
  | nil => intro i a h; simp [List.get?] at h
  | cons x t ih =>
    intro i a h
    cases i with
    | zero => simp
    | succ j =>
      simp only [List.get?] at h
      have := ih j a h
      simp
      omega

/-- Setting at an occupied index is observed by lookup at that index. -/
theorem get?_set_self {α : Type} :
    ∀ (l : List α) (i : Nat) (a b : α), l.get? i = some b → (l.set i a).get? i = some a := by
  intro l
  induction l with
  | nil => intro i a b h; simp [List.get?] at h
  | cons x t ih =>
    intro i a b h
    cases i with
    | zero => rfl
    | succ j =>
      simp only [List.get?, List.set] at h ⊢
      exact ih j a b h

/-- How `applyFields` follows `resolveFields`, given how `applyAt` follows
`resolveValue` on the remaining path: when the edit function fails at the
resolved target the edit fails, and when it succeeds (preserving the target's
name) the edit succeeds, the edited list resolves to the new target, and no
sibling is renamed. -/
theorem applyFields_from_applyAt (f : UIValue → Option UIValue) (rest : List PathSeg)
    (hP : ∀ v t, resolveValue rest v = some t →
      (f t = none → applyAt f rest v = none) ∧
      (∀ t', f t = some t' → valueName t' = valueName t →
        ∃ v', applyAt f rest v = some v' ∧ resolveValue rest v' = some t' ∧
          valueName v' = valueName v)) :
    ∀ (vs : List UIValue) (n : String) (t : UIValue), resolveFields n rest vs = some t →
      (f t = none → applyFields f n rest vs = none) ∧
      (∀ t', f t = some t' → valueName t' = valueName t →
        ∃ vs', applyFields f n rest vs = some vs' ∧ resolveFields n rest vs' = some t' ∧
          vs'.map valueName = vs.map valueName) := by
  intro vs
  induction vs with
  | nil => intro n t h; simp [resolveFields] at h
  | cons v vtail ih =>
    intro n t h
    by_cases hname : valueName v = n
    · rw [resolveFields, if_pos hname] at h
      constructor
      · intro hf
        simp [applyFields, hname, (hP v t h).1 hf]
      · intro t' hf hn
        obtain ⟨v', hv1, hv2, hv3⟩ := (hP v t h).2 t' hf hn
        refine ⟨v' :: vtail, ?_, ?_, ?_⟩
        · simp [applyFields, hname, hv1]
        · rw [resolveFields, if_pos (by rw [hv3]; exact hname)]
          exact hv2
        · simp [hv3]
    · rw [resolveFields, if_neg hname] at h
      have hrec := ih n t h
      constructor
      · intro hf
        simp [applyFields, hname, hrec.1 hf]
      · intro t' hf hn
        obtain ⟨vs', h1, h2, h3⟩ := hrec.2 t' hf hn
        refine ⟨v :: vs', ?_, ?_, ?_⟩
        · simp [applyFields, hname, h1]
        · rw [resolveFields, if_neg hname]
          exact h2
        · simp [h3]

/-- How `applyAt` follows `resolveValue`: when the path resolves to a target,
a failing edit function makes the edit fail, and a succeeding edit function
(preserving the target's name) makes the edit succeed with the edited tree
resolving to the new target and the root keeping its name. -/
theorem applyAt_resolve (f : UIValue → Option UIValue) :
    ∀ (path : List PathSeg) (v t : UIValue), resolveValue path v = some t →
      (f t = none → applyAt f path v = none) ∧
      (∀ t', f t = some t' → valueName t' = valueName t →
        ∃ v', applyAt f path v = some v' ∧ resolveValue path v' = some t' ∧
          valueName v' = valueName v) := by
  intro path
  induction path with
  | nil =>
    intro v t h
    simp only [resolveValue, Option.some.injEq] at h
    subst h
    constructor
    · intro hf; simp [applyAt, hf]
    · intro t' hf hn
      exact ⟨t', by simp [applyAt, hf], by simp [resolveValue], hn⟩
  | cons seg rest ih =>
    have hM := applyFields_from_applyAt f rest ih
    intro v t h
    cases seg with
    | field n =>
      cases v with
      | intValue nm x => simp [resolveValue] at h
      | array an tm elems => simp [resolveValue] at h
      | group gn fields =>
        simp only [resolveValue] at h
        have hMf := hM fields n t h
        constructor
        · intro hf
          simp [applyAt, hMf.1 hf]
        · intro t' hf hn
          obtain ⟨fields', h1, h2, h3⟩ := hMf.2 t' hf hn
          exact ⟨UIValue.group gn fields', by simp [applyAt, h1],
            by simp [resolveValue, h2], by simp [valueName]⟩
    | index i =>
      cases v with
      | intValue nm x => simp [resolveValue] at h
      | group gn fields => simp [resolveValue] at h
      | array an tm elems =>
        simp only [resolveValue] at h
        rcases hg : elems.get? i with _ | el
        · rw [hg] at h; simp at h
        · rw [hg] at h; simp only at h
          have hg' : elems[i]? = some el := by
            simpa [List.get?_eq_getElem?] using hg
          have hel := ih el t h
          constructor
          · intro hf
            simp [applyAt, hg', hel.1 hf]
          · intro t' hf hn
            obtain ⟨el', h1, h2, h3⟩ := hel.2 t' hf hn
            have hset : (elems.set i el')[i]? = some el' := by
              simpa [List.get?_eq_getElem?] using get?_set_self elems i el' el hg
            refine ⟨UIValue.array an tm (elems.set i el'), ?_, ?_, ?_⟩
            · simp [applyAt, hg', h1]
            · simp [resolveValue, hset, h2]
            · simp [valueName]

/-- C8: ArrayRemove through the core handle: (1) when the path edit fails,
remove_element_component_value returns false, leaves the state unchanged and
never invokes set_component_value (its trace is exactly the gate plus the
read); (2) an out-of-range index at a path resolving to an array makes the
edit fail with the value list unchanged; (3) an in-range index succeeds,
the edited list resolves at the path to the array with exactly element i
removed, and no top-level value is renamed; (4) on success with a nonempty
change set the edited list is written back through set_component_value. -/
theorem c8_array_remove_behavior :
    (∀ env s k n path i values,
      (get_component_values env s k n).2 = some values →
      (change_from_path path values (remove_array_function i)).2 = false →
      remove_element_component_value env s k n path i =
        (required_feature "core_methods" ++ (get_component_values env s k n).1, s, false)) ∧
    (∀ path values nm tm elems i,
      resolve path values = some (UIValue.array nm tm elems) →
      elems.length ≤ i →
      change_from_path path values (remove_array_function i) = (values, false)) ∧
    (∀ path values nm tm elems i,
      resolve path values = some (UIValue.array nm tm elems) →
      i < elems.length →
      (change_from_path path values (remove_array_function i)).2 = true ∧
      resolve path (change_from_path path values (remove_array_function i)).1 =
        some (UIValue.array nm tm (elems.eraseIdx i)) ∧
      (change_from_path path values (remove_array_function i)).1.map valueName =
        values.map valueName) ∧
    (∀ env s k n path i values,
      (get_component_values env s k n).2 = some values →
      (change_from_path path values (remove_array_function i)).2 = true →
      (change_from_path path values (remove_array_function i)).1.isEmpty = false →
      remove_element_component_value env s k n path i =
        (required_feature "core_methods" ++ (get_component_values env s k n).1 ++
          (set_component_value env s k n
            (change_from_path path values (remove_array_function i)).1).1,
         (set_component_value env s k n
           (change_from_path path values (remove_array_function i)).1).2)) := by
  refine ⟨?_, ?_, ?_, ?_⟩
  · intro env s k n path i values hv hfail
    simp only [remove_element_component_value, hv]
    simp [hfail]
  · intro path values nm tm elems i hres hle
    cases path with
    | nil => simp [resolve] at hres
    | cons seg rest =>
      cases seg with
      | index j => simp [resolve] at hres
      | field n =>
        simp only [resolve] at hres
        have hM := applyFields_from_applyAt (remove_array_function i) rest
          (fun v t h => applyAt_resolve (remove_array_function i) rest v t h)
        have hf : remove_array_function i (UIValue.array nm tm elems) = none := by
          simp only [remove_array_function]
          rw [if_neg (by omega)]
        have hnone := (hM values n _ hres).1 hf
        simp [change_from_path, hnone]
  · intro path values nm tm elems i hres hlt
    cases path with
    | nil => simp [resolve] at hres
    | cons seg rest =>
      cases seg with
      | index j => simp [resolve] at hres
      | field n =>
        simp only [resolve] at hres
        have hM := applyFields_from_applyAt (remove_array_function i) rest
          (fun v t h => applyAt_resolve (remove_array_function i) rest v t h)
        have hf : remove_array_function i (UIValue.array nm tm elems) =
            some (UIValue.array nm tm (elems.eraseIdx i)) := by
          simp only [remove_array_function]
          rw [if_pos hlt]
        obtain ⟨vs', h1, h2, h3⟩ :=
          (hM values n _ hres).2 _ hf (by simp [valueName])
        refine ⟨?_, ?_, ?_⟩ <;> simp [change_from_path, resolve, h1, h2, h3]
  · intro env s k n path i values hv hsucc hne
    simp only [remove_element_component_value, hv]
    simp [hsucc, hne]

/-- C8 witness: on the S6-style tree, removing index 9 of "arr" fails with the
state unchanged and set_component_value not invoked, while removing index 1
succeeds and yields exactly the array without its element 1. -/
theorem c8_array_remove_witness :
    remove_element_component_value c8_env c8_state 0 "renderer" [PathSeg.field "arr"] 9 =
      (required_feature "core_methods" ++
        (get_component_values c8_env c8_state 0 "renderer").1, c8_state, false) ∧
    (change_from_path [PathSeg.field "arr"] c8_values (remove_array_function 9)).2 = false ∧
    (change_from_path [PathSeg.field "arr"] c8_values (remove_array_function 1)).2 = true ∧
    resolve [PathSeg.field "arr"]
        (change_from_path [PathSeg.field "arr"] c8_values (remove_array_function 1)).1 =
      some (UIValue.array "arr" (UIValue.intValue "t" 0)
        [UIValue.intValue "x" 10, UIValue.intValue "z" 30]) := by
  have hres : resolve [PathSeg.field "arr"] c8_values =
      some (UIValue.array "arr" (UIValue.intValue "t" 0)
        [UIValue.intValue "x" 10, UIValue.intValue "y" 20, UIValue.intValue "z" 30]) := by
    simp [resolve, resolveFields, resolveValue, c8_values, valueName]
  have h2 := c8_array_remove_behavior.2.1 [PathSeg.field "arr"] c8_values "arr"
    (UIValue.intValue "t" 0)
    [UIValue.intValue "x" 10, UIValue.intValue "y" 20, UIValue.intValue "z" 30] 9
    hres (by simp)
  have h1 := c8_array_remove_behavior.1 c8_env c8_state 0 "renderer"
    [PathSeg.field "arr"] 9 c8_values rfl (by rw [h2])
  have h3 := c8_array_remove_behavior.2.2.1 [PathSeg.field "arr"] c8_values "arr"
    (UIValue.intValue "t" 0)
    [UIValue.intValue "x" 10, UIValue.intValue "y" 20, UIValue.intValue "z" 30] 1
    hres (by simp)
  exact ⟨h1, by rw [h2], h3.1, h3.2.1⟩
